import Mathlib

/-!
Verification of the speech-translation recognizer fragment
(`source/public/cxx_api/speechapi_cxx_translation_recognizer.h`) and the USP
console harness (`tools/uspclientconsole/uspclientconsole.c`), together with
the session/turn core they bind to, as described by the repository spec.

Shallow embedding: C++ methods become Lean functions on explicit state;
`std::future` values become an inductive distinguishing a future that is
already resolved when the call returns from one backed by an asynchronously
launched task (`std::async(std::launch::async, ...)`); error codes become
inductive types.
-/

namespace SpeechSdk

/-! ## Keyword recognition stubs (`TranslationRecognizer`)

`StartKeywordRecognitionAsync` / `StopKeywordRecognitionAsync` in
`speechapi_cxx_translation_recognizer.h` both build
`std::async(std::launch::async, [=]() { SPX_THROW_ON_FAIL(SPXERR_NOT_IMPL); })`
and return the future. -/

/-- SPX error codes reachable from the embedded fragment. -/
inductive SpxError
  | notImpl          -- SPXERR_NOT_IMPL
deriving DecidableEq, Repr

/-- The keyword-model argument is opaque to the recognizer; `none` stands for a
null `std::shared_ptr`, `some` for any concrete model (possibly empty). -/
inductive KeywordModelArg
  | emptyModel
  | namedModel (name : String)
deriving DecidableEq, Repr

/-- The primitive effects an async lambda body can perform; the embedded
bodies contain only a `SPX_THROW_ON_FAIL` of an error code, never a network
round-trip. -/
inductive AsyncAction
  | throwSpx (e : SpxError)
  | networkRoundTrip
deriving DecidableEq, Repr

/-- Running a lambda body: the first `SPX_THROW_ON_FAIL` of a failure code
aborts with that error. -/
def runBody : List AsyncAction → Except SpxError Unit
  | [] => .ok ()
  | .throwSpx e :: _ => .error e
  | .networkRoundTrip :: rest => runBody rest

/-- A `std::future<void>` as constructed by the embedded code: either a future
already holding its result when the constructing call returns, or a future
backed by a task launched with `std::launch::async`, whose body has not
necessarily run when the call returns. -/
inductive SpxFuture
  | ready (r : Except SpxError Unit)
  | asyncTask (body : List AsyncAction)
deriving Repr

/-- `future.get()`: waits for and returns the outcome. -/
def SpxFuture.get : SpxFuture → Except SpxError Unit
  | .ready r => r
  | .asyncTask body => runBody body

/-- Whether the future already holds its result at the instant the call that
produced it returns. `std::async(std::launch::async, f)` hands the body to a
separate thread, so the returned future is not resolved at that instant. -/
def SpxFuture.isResolvedAtReturn : SpxFuture → Bool
  | .ready _ => true
  | .asyncTask _ => false

/-- The effects the future's task performs. -/
def SpxFuture.actions : SpxFuture → List AsyncAction
  | .ready _ => []
  | .asyncTask body => body

/-- `TranslationRecognizer::StartKeywordRecognitionAsync(model)`:
`UNUSED(model); return std::async(std::launch::async,
[=]() { SPX_THROW_ON_FAIL(SPXERR_NOT_IMPL); });` -/
def StartKeywordRecognitionAsync (model : Option KeywordModelArg) : SpxFuture :=
  let _ := model   -- UNUSED(model)
  .asyncTask [.throwSpx .notImpl]

/-- `TranslationRecognizer::StopKeywordRecognitionAsync()`:
`return std::async(std::launch::async,
[=]() { SPX_THROW_ON_FAIL(SPXERR_NOT_IMPL); });` -/
def StopKeywordRecognitionAsync : SpxFuture :=
  .asyncTask [.throwSpx .notImpl]

/-- C1: For every keyword-recognition model argument, including a null or
empty model, `StartKeywordRecognitionAsync(model)` and
`StopKeywordRecognitionAsync()` return a future that resolves as failed with
`SPXERR_NOT_IMPL`; they never succeed and never act as a silent no-op. -/
theorem keyword_recognition_always_not_impl (model : Option KeywordModelArg) :
    (StartKeywordRecognitionAsync model).get = .error .notImpl ∧
    StopKeywordRecognitionAsync.get = .error .notImpl ∧
    (StartKeywordRecognitionAsync model).get ≠ .ok () ∧
    StopKeywordRecognitionAsync.get ≠ .ok () := by
  refine ⟨rfl, rfl, ?_, ?_⟩ <;> simp [StartKeywordRecognitionAsync,
    StopKeywordRecognitionAsync, SpxFuture.get, runBody]

/-- C2 counterexample: the future returned by
`StartKeywordRecognitionAsync` (here at a null model) is NOT already resolved
at the time the call returns — it is backed by a `std::launch::async` task. -/
theorem keyword_future_not_resolved_at_return :
    (StartKeywordRecognitionAsync none).isResolvedAtReturn = false ∧
    StopKeywordRecognitionAsync.isResolvedAtReturn = false := by
  exact ⟨rfl, rfl⟩

/-- C2 (amended): both NotImplemented operations attempt no network
round-trip and always fail with `SPXERR_NOT_IMPL` when the future is waited
on; the failure is produced by an asynchronously launched task, not by a
future already resolved when the call returns. -/
theorem keyword_not_impl_no_network (model : Option KeywordModelArg) :
    (StartKeywordRecognitionAsync model).get = .error .notImpl ∧
    ((StartKeywordRecognitionAsync model).actions.all
      (fun a => !(a == AsyncAction.networkRoundTrip))) = true ∧
    StopKeywordRecognitionAsync.get = .error .notImpl ∧
    (StopKeywordRecognitionAsync.actions.all
      (fun a => !(a == AsyncAction.networkRoundTrip))) = true ∧
    (StartKeywordRecognitionAsync model).isResolvedAtReturn = false := by
  refine ⟨rfl, ?_, rfl, ?_, rfl⟩ <;> rfl

/-! ## Translation-synthesis event callback registration

`GetTranslationAudioEventConnectionsChangedCallback` (in the header) returns a
lambda that, whenever the connections of `TranslationSynthesisResultEvent`
change, sets the native synthesis callback to `FireEvent_TranslationSynthesisResult`
when `IsConnected()` holds and to `nullptr` otherwise.  The `EventSignal`
class itself is outside the visible fragment; its connect/disconnect
bookkeeping is modelled from the spec. -/

/-- State of the `TranslationSynthesisResultEvent` signal together with the
native callback registration that the connections-changed lambda maintains. -/
structure SynthEventState where
  connectedCount : Nat        -- number of connected subscribers
  callbackRegistered : Bool   -- native synthesis callback set (non-null)
deriving DecidableEq, Repr

/-- `EventSignal::IsConnected()`: at least one subscriber is connected. -/
def IsConnected (s : SynthEventState) : Bool :=
  decide (0 < s.connectedCount)

/-- The lambda returned by `GetTranslationAudioEventConnectionsChangedCallback`:
`TranslationRecognizer_TranslationSynthesis_SetEventCallback(m_hreco,
IsConnected() ? FireEvent_TranslationSynthesisResult : nullptr, this)`. -/
def translationAudioConnectionsChanged (s : SynthEventState) : SynthEventState :=
  { s with callbackRegistered := IsConnected s }

/-- Modelled from the spec: the subscriber registry ("a registration with zero
remaining callbacks for a kind must disable server-side production of that
kind").  Connecting a subscriber adds it to the registry and fires the
connections-changed callback. -/
def connectSubscriber (s : SynthEventState) : SynthEventState :=
  translationAudioConnectionsChanged { s with connectedCount := s.connectedCount + 1 }

/-- Modelled from the spec: disconnecting a subscriber removes it from the
registry and fires the connections-changed callback. -/
def disconnectSubscriber (s : SynthEventState) : SynthEventState :=
  translationAudioConnectionsChanged { s with connectedCount := s.connectedCount - 1 }

/-- At recognizer construction no subscriber is connected and no native
synthesis callback has been set. -/
def initialSynthState : SynthEventState := ⟨0, false⟩

/-- A subscriber-registry operation. -/
inductive SubscriberOp
  | connect
  | disconnect
deriving DecidableEq, Repr

def applySubscriberOp (s : SynthEventState) : SubscriberOp → SynthEventState
  | .connect => connectSubscriber s
  | .disconnect => disconnectSubscriber s

/-- The synthesis-event state after a sequence of connect/disconnect
operations starting from the freshly constructed recognizer. -/
def runSubscriberOps (ops : List SubscriberOp) : SynthEventState :=
  ops.foldl applySubscriberOp initialSynthState

/-- C3: at every reachable instant, the native translation-synthesis callback
is registered if and only if `TranslationSynthesisResultEvent` has at least
one connected subscriber; disconnecting the last subscriber disables
production and connecting a subscriber enables it. -/
theorem synthesis_callback_iff_subscriber (ops : List SubscriberOp) :
    (runSubscriberOps ops).callbackRegistered
      = decide (0 < (runSubscriberOps ops).connectedCount) ∧
    (∀ s : SynthEventState, (disconnectSubscriber s).connectedCount = 0 →
      (disconnectSubscriber s).callbackRegistered = false) ∧
    (∀ s : SynthEventState, (connectSubscriber s).callbackRegistered = true) := by
  refine ⟨?_, ?_, ?_⟩
  · suffices h : ∀ (l : List SubscriberOp) (s : SynthEventState),
        s.callbackRegistered = decide (0 < s.connectedCount) →
        (l.foldl applySubscriberOp s).callbackRegistered
          = decide (0 < (l.foldl applySubscriberOp s).connectedCount) by
      exact h ops initialSynthState rfl
    intro l
    induction l with
    | nil => intro s hs; simpa using hs
    | cons op rest ih =>
      intro s _
      cases op <;>
        simpa [applySubscriberOp, connectSubscriber, disconnectSubscriber,
          translationAudioConnectionsChanged, IsConnected] using
          ih _ (by simp [connectSubscriber, disconnectSubscriber,
            translationAudioConnectionsChanged, IsConnected])
  · intro s h
    have hz : s.connectedCount - 1 = 0 := h
    simp [disconnectSubscriber, translationAudioConnectionsChanged, IsConnected, hz]
  · intro s
    simp [connectSubscriber, translationAudioConnectionsChanged, IsConnected]

/-- Witness for C3 at a concrete operation sequence and concrete states. -/
theorem synthesis_callback_iff_subscriber_witness :
    (runSubscriberOps [.connect, .connect, .disconnect]).callbackRegistered
      = decide (0 < (runSubscriberOps [.connect, .connect, .disconnect]).connectedCount) ∧
    (disconnectSubscriber ⟨1, true⟩).connectedCount = 0 ∧
    (disconnectSubscriber ⟨1, true⟩).callbackRegistered = false ∧
    (connectSubscriber ⟨0, false⟩).callbackRegistered = true :=
  ⟨(synthesis_callback_iff_subscriber [.connect, .connect, .disconnect]).1,
   by decide,
   (synthesis_callback_iff_subscriber []).2.1 ⟨1, true⟩ (by decide),
   (synthesis_callback_iff_subscriber []).2.2 ⟨0, false⟩⟩

/-! ## Authorization token storage (`SetAuthorizationToken` / `GetAuthorizationToken`)

The header stores the token via
`Parameters.SetProperty(SpeechPropertyId::SpeechServiceAuthorization_Token, token)`
and reads it via
`Parameters.GetProperty(SpeechPropertyId::SpeechServiceAuthorization_Token, "")`.
`PropertyCollection` is outside the visible fragment; it is modelled from the
spec as pass-through key/value property storage. -/

/-- The property identifiers used by the embedded fragment. -/
inductive SpeechPropertyId
  | speechServiceAuthorizationToken
  | otherProperty (n : Nat)
deriving DecidableEq, Repr

/-- Modelled from the spec: `PropertyCollection` is plain key/value property
storage; the most recent binding for a key wins. -/
def PropertyCollection := List (SpeechPropertyId × String)

/-- Modelled from the spec: `SetProperty` records a binding. -/
def SetProperty (ps : PropertyCollection) (id : SpeechPropertyId) (v : String) :
    PropertyCollection :=
  (id, v) :: ps

/-- Modelled from the spec: `GetProperty` returns the stored value, or the
supplied default when the key has never been set. -/
def GetProperty (ps : PropertyCollection) (id : SpeechPropertyId)
    (defaultValue : String) : String :=
  match ps.lookup id with
  | some v => v
  | none => defaultValue

/-- Connection state of a session (spec data model). -/
inductive ConnectionState
  | Disconnected
  | Connecting
  | Connected
  | Closing
  | Closed
deriving DecidableEq, Repr

/-- The recognizer state visible to the token accessors: its `Parameters`
collection and the connection state of its session. -/
structure RecognizerState where
  parameters : PropertyCollection
  connection : ConnectionState

/-- A freshly constructed recognizer: no property has been set and no
connection has been attempted. -/
def initialRecognizerState : RecognizerState :=
  { parameters := [], connection := .Disconnected }

/-- `TranslationRecognizer::SetAuthorizationToken(token)`:
`Parameters.SetProperty(SpeechPropertyId::SpeechServiceAuthorization_Token, token)`. -/
def SetAuthorizationToken (st : RecognizerState) (token : String) : RecognizerState :=
  { st with parameters :=
      SetProperty st.parameters .speechServiceAuthorizationToken token }

/-- `TranslationRecognizer::GetAuthorizationToken()`:
`return Parameters.GetProperty(SpeechPropertyId::SpeechServiceAuthorization_Token, "")`. -/
def GetAuthorizationToken (st : RecognizerState) : String :=
  GetProperty st.parameters .speechServiceAuthorizationToken ""

/-- C5: for every token string `t` and every recognizer state, after
`SetAuthorizationToken(t)` a subsequent `GetAuthorizationToken()` returns `t`,
and setting the token changes no connection state. -/
theorem set_then_get_authorization_token (st : RecognizerState) (t : String) :
    GetAuthorizationToken (SetAuthorizationToken st t) = t ∧
    (SetAuthorizationToken st t).connection = st.connection := by
  constructor
  · simp [GetAuthorizationToken, SetAuthorizationToken, GetProperty, SetProperty,
      List.lookup]
  · rfl

/-- C9: if no authorization token has ever been set (the collection holds no
binding for the token key), `GetAuthorizationToken()` returns the empty
string, the default value, rather than failing. -/
theorem get_authorization_token_default (st : RecognizerState)
    (h : st.parameters.lookup .speechServiceAuthorizationToken = none) :
    GetAuthorizationToken st = "" := by
  simp [GetAuthorizationToken, GetProperty, h]

/-- Witness for C9 at the freshly constructed recognizer. -/
theorem get_authorization_token_default_witness :
    initialRecognizerState.parameters.lookup
      SpeechPropertyId.speechServiceAuthorizationToken = none ∧
    GetAuthorizationToken initialRecognizerState = "" :=
  ⟨rfl, get_authorization_token_default initialRecognizerState rfl⟩

/-! ## TurnStateMachine

Modelled from the spec: the TurnStateMachine (§4.3) is not part of the visible
repository fragment; only its outer binding is.  States
`Idle → AwaitingSpeech → Detecting → Hypothesizing → Finalizing → Idle` with an
`Error/Canceled` absorbing transition from any non-Idle state; `TurnEnd`
performs the transient `Finalizing → Idle` move in a single step here. -/

/-- The state of one Turn (spec data model §3). -/
inductive TurnStatus
  | NotStarted
  | SpeechDetecting
  | Hypothesizing
  | Finalized
  | Canceled
deriving DecidableEq, Repr

/-- A status is terminal when the turn is finished for good. -/
def TurnStatus.isTerminal : TurnStatus → Bool
  | .Finalized => true
  | .Canceled => true
  | _ => false

/-- One recognition utterance cycle (spec data model §3). -/
structure Turn where
  hypotheses : List String
  finalPhrase : Option String
  speechEnded : Bool
  status : TurnStatus
deriving DecidableEq, Repr

/-- TurnStateMachine control state.  `Finalizing` is transient (entered and
left inside the `TurnEnd` step), so it does not appear as a resting state. -/
inductive TsmState
  | Idle
  | AwaitingSpeech
  | Detecting
  | Hypothesizing
deriving DecidableEq, Repr

/-- Typed protocol events consumed by the TurnStateMachine (spec §3/§4.3). -/
inductive TsmEvent
  | TurnStart
  | SpeechStartDetected
  | Hypothesis (text : String)
  | SpeechEndDetected
  | Phrase (text : String)
  | TurnEnd
  | TranslationSynthesis (audio : List Nat)
deriving DecidableEq, Repr

/-- The allowed set of events per state (spec §4.3 transition rules);
`TranslationSynthesis` is orthogonal to the turn's text state. -/
def allowed : TsmState → TsmEvent → Bool
  | .Idle, .TurnStart => true
  | .AwaitingSpeech, .SpeechStartDetected => true
  | .Detecting, .SpeechStartDetected => true
  | .Detecting, .Hypothesis _ => true
  | .Hypothesizing, .Hypothesis _ => true
  | .Detecting, .SpeechEndDetected => true
  | .Hypothesizing, .SpeechEndDetected => true
  | .Detecting, .Phrase _ => true
  | .Hypothesizing, .Phrase _ => true
  | .Detecting, .TurnEnd => true
  | .Hypothesizing, .TurnEnd => true
  | _, .TranslationSynthesis _ => true
  | _, _ => false

/-- Error taxonomy tags surfaced by the machine (spec §7). -/
inductive ErrorTag
  | ProtocolViolation
deriving DecidableEq, Repr

/-- Events emitted toward the EventDispatcher by one machine step. -/
inductive OutEvent
  | dispatched (e : TsmEvent)
  | errorEvent (tag : ErrorTag)
deriving DecidableEq, Repr

/-- Machine state: control state, the active turn (nullable), and the archive
of completed turns. -/
structure TsmMachine where
  state : TsmState
  activeTurn : Option Turn
  archive : List Turn
deriving DecidableEq, Repr

def tsmInit : TsmMachine := { state := .Idle, activeTurn := none, archive := [] }

def newTurn : Turn :=
  { hypotheses := [], finalPhrase := none, speechEnded := false, status := .NotStarted }

/-- On a protocol violation the current turn (if any) is forced to
`Canceled` and archived. -/
def cancelActive (m : TsmMachine) : List Turn :=
  match m.activeTurn with
  | some t => m.archive ++ [{ t with status := .Canceled }]
  | none => m.archive

/-- One TurnStateMachine step (spec §4.3): an allowed event updates the turn
and is dispatched; any event outside the allowed set is a protocol violation —
converted to an `Error` event, the current turn forced to `Canceled`, the
machine returned to `Idle`. -/
def tsmStep (m : TsmMachine) (e : TsmEvent) : TsmMachine × List OutEvent :=
  if allowed m.state e then
    match e with
    | .TurnStart =>
        ({ m with state := .AwaitingSpeech, activeTurn := some newTurn },
         [.dispatched e])
    | .SpeechStartDetected =>
        ({ m with
            state := .Detecting,
            activeTurn := m.activeTurn.map (fun t =>
              { t with status := .SpeechDetecting }) },
         [.dispatched e])
    | .Hypothesis txt =>
        ({ m with
            state := .Hypothesizing,
            activeTurn := m.activeTurn.map (fun t =>
              { t with
                  hypotheses := t.hypotheses ++ [txt],
                  status := .Hypothesizing }) },
         [.dispatched e])
    | .SpeechEndDetected =>
        ({ m with activeTurn := m.activeTurn.map (fun t =>
              { t with speechEnded := true }) },
         [.dispatched e])
    | .Phrase txt =>
        ({ m with activeTurn := m.activeTurn.map (fun t =>
              { t with finalPhrase := some txt }) },
         [.dispatched e])
    | .TurnEnd =>
        ({ state := .Idle,
           activeTurn := none,
           archive := m.archive ++
             (m.activeTurn.map (fun t => { t with status := .Finalized })).toList },
         [.dispatched e])
    | .TranslationSynthesis _ =>
        (m, [.dispatched e])
  else
    ({ state := .Idle, activeTurn := none, archive := cancelActive m },
     [.errorEvent .ProtocolViolation])

/-- Run the machine over an event list. -/
def tsmExec : TsmMachine → List TsmEvent → TsmMachine
  | m, [] => m
  | m, e :: rest => tsmExec (tsmStep m e).1 rest

def tsmRun (es : List TsmEvent) : TsmMachine := tsmExec tsmInit es

/-- A trace is valid when every event is in the allowed set of the state it
arrives in. -/
def validTrace : TsmMachine → List TsmEvent → Bool
  | _, [] => true
  | m, e :: rest => allowed m.state e && validTrace (tsmStep m e).1 rest

def countTurnStarts (es : List TsmEvent) : Nat :=
  es.countP fun e => e == .TurnStart

/-- Structural machine invariant: a turn is active exactly in non-Idle
states, archived turns are terminal, the active turn is not. -/
def tsmInv (m : TsmMachine) : Prop :=
  (m.activeTurn.isSome = decide (m.state ≠ .Idle)) ∧
  (∀ t ∈ m.archive, t.status = .Finalized ∨ t.status = .Canceled) ∧
  (∀ t, m.activeTurn = some t → t.status.isTerminal = false)

theorem tsmInv_init : tsmInv tsmInit := by
  refine ⟨rfl, ?_, ?_⟩ <;> simp [tsmInit]

/-- Events whose allowed set excludes `Idle` force a non-Idle state. -/
theorem allowed_not_idle {m : TsmMachine} {e : TsmEvent}
    (hall : allowed m.state e = true) (hne : e ≠ .TurnStart)
    (hns : ∀ a, e ≠ .TranslationSynthesis a) : m.state ≠ .Idle := by
  intro hs
  rw [hs] at hall
  cases e with
  | TurnStart => exact hne rfl
  | TranslationSynthesis a => exact hns a rfl
  | _ => simp [allowed] at hall

theorem tsmStep_inv (m : TsmMachine) (e : TsmEvent) (h : tsmInv m) :
    tsmInv (tsmStep m e).1 := by
  obtain ⟨hc, ha, ht⟩ := h
  by_cases hall : allowed m.state e = true
  · cases e with
    | TurnStart =>
      simp only [tsmStep, hall, if_pos]
      refine ⟨by simp, by simpa using ha, ?_⟩
      intro t ht'
      simp only [Option.some.injEq] at ht'
      subst ht'
      rfl
    | SpeechStartDetected =>
      have hni : m.state ≠ .Idle := allowed_not_idle hall (by simp) (by simp)
      have hsome : m.activeTurn.isSome = true := by
        rw [hc]; simpa using hni
      cases hm : m.activeTurn with
      | none => rw [hm] at hsome; cases hsome
      | some u =>
        simp only [tsmStep, hall, if_pos, hm, Option.map_some']
        refine ⟨by simp, by simpa using ha, ?_⟩
        intro t ht'
        simp only [Option.some.injEq] at ht'
        subst ht'
        rfl
    | Hypothesis txt =>
      have hni : m.state ≠ .Idle := allowed_not_idle hall (by simp) (by simp)
      have hsome : m.activeTurn.isSome = true := by
        rw [hc]; simpa using hni
      cases hm : m.activeTurn with
      | none => rw [hm] at hsome; cases hsome
      | some u =>
        simp only [tsmStep, hall, if_pos, hm, Option.map_some']
        refine ⟨by simp, by simpa using ha, ?_⟩
        intro t ht'
        simp only [Option.some.injEq] at ht'
        subst ht'
        rfl
    | SpeechEndDetected =>
      have hni : m.state ≠ .Idle := allowed_not_idle hall (by simp) (by simp)
      have hsome : m.activeTurn.isSome = true := by
        rw [hc]; simpa using hni
      cases hm : m.activeTurn with
      | none => rw [hm] at hsome; cases hsome
      | some u =>
        simp only [tsmStep, hall, if_pos, hm, Option.map_some']
        refine ⟨?_, by simpa using ha, ?_⟩
        · simpa using by rw [hm] at hc; simpa using hc
        · intro t ht'
          simp only [Option.some.injEq] at ht'
          subst ht'
          simpa [TurnStatus.isTerminal] using ht u hm
    | Phrase txt =>
      have hni : m.state ≠ .Idle := allowed_not_idle hall (by simp) (by simp)
      have hsome : m.activeTurn.isSome = true := by
        rw [hc]; simpa using hni
      cases hm : m.activeTurn with
      | none => rw [hm] at hsome; cases hsome
      | some u =>
        simp only [tsmStep, hall, if_pos, hm, Option.map_some']
        refine ⟨?_, by simpa using ha, ?_⟩
        · simpa using by rw [hm] at hc; simpa using hc
        · intro t ht'
          simp only [Option.some.injEq] at ht'
          subst ht'
          simpa [TurnStatus.isTerminal] using ht u hm
    | TurnEnd =>
      simp only [tsmStep, hall, if_pos]
      refine ⟨by simp, ?_, by intro t ht'; cases ht'⟩
      intro t ht'
      simp only [List.mem_append] at ht'
      rcases ht' with h1 | h1
      · exact ha t h1
      · cases hm : m.activeTurn with
        | none => rw [hm] at h1; simp at h1
        | some u =>
          rw [hm] at h1
          simp only [Option.map_some', Option.toList_some, List.mem_singleton] at h1
          subst h1
          left
          rfl
    | TranslationSynthesis a =>
      simpa only [tsmStep, hall, if_pos] using ⟨hc, ha, ht⟩
  · simp only [tsmStep, hall, if_neg, Bool.not_eq_true]
    refine ⟨rfl, ?_, by intro t ht'; cases ht'⟩
    intro t ht'
    unfold cancelActive at ht'
    cases hm : m.activeTurn with
    | none => rw [hm] at ht'; exact ha t ht'
    | some u =>
      rw [hm] at ht'
      rcases List.mem_append.mp ht' with h1 | h1
      · exact ha t h1
      · simp only [List.mem_singleton] at h1
        subst h1; right; rfl

theorem tsmExec_inv (es : List TsmEvent) (m : TsmMachine) (h : tsmInv m) :
    tsmInv (tsmExec m es) := by
  induction es generalizing m with
  | nil => exact h
  | cons e rest ih => exact ih _ (tsmStep_inv m e h)

/-- 1 when a turn is active, else 0. -/
def activeCount (m : TsmMachine) : Nat :=
  if m.activeTurn.isSome then 1 else 0

/-- An allowed step creates a turn exactly on `TurnStart` and retires one
exactly on completion: completed + active turns grow by one per `TurnStart`. -/
theorem tsmStep_count (m : TsmMachine) (e : TsmEvent)
    (hall : allowed m.state e = true)
    (hc : m.activeTurn.isSome = decide (m.state ≠ .Idle)) :
    (tsmStep m e).1.archive.length + activeCount (tsmStep m e).1
      = m.archive.length + activeCount m
          + (if e == TsmEvent.TurnStart then 1 else 0) := by
  cases e with
  | TurnStart =>
    have hs : m.state = .Idle := by
      revert hall
      cases m.state <;> intro hall <;> first | rfl | simp [allowed] at hall
    have hnone : m.activeTurn = none := by
      cases hm : m.activeTurn with
      | none => rfl
      | some u => rw [hm, hs] at hc; simp at hc
    simp [tsmStep, hall, activeCount, hnone]
  | SpeechStartDetected =>
    have hni : m.state ≠ .Idle := allowed_not_idle hall (by simp) (by simp)
    have hsome : m.activeTurn.isSome = true := by rw [hc]; simpa using hni
    cases hm : m.activeTurn with
    | none => rw [hm] at hsome; cases hsome
    | some u => simp [tsmStep, hall, hm, activeCount]
  | Hypothesis txt =>
    have hni : m.state ≠ .Idle := allowed_not_idle hall (by simp) (by simp)
    have hsome : m.activeTurn.isSome = true := by rw [hc]; simpa using hni
    cases hm : m.activeTurn with
    | none => rw [hm] at hsome; cases hsome
    | some u => simp [tsmStep, hall, hm, activeCount]
  | SpeechEndDetected =>
    have hni : m.state ≠ .Idle := allowed_not_idle hall (by simp) (by simp)
    have hsome : m.activeTurn.isSome = true := by rw [hc]; simpa using hni
    cases hm : m.activeTurn with
    | none => rw [hm] at hsome; cases hsome
    | some u => simp [tsmStep, hall, hm, activeCount]
  | Phrase txt =>
    have hni : m.state ≠ .Idle := allowed_not_idle hall (by simp) (by simp)
    have hsome : m.activeTurn.isSome = true := by rw [hc]; simpa using hni
    cases hm : m.activeTurn with
    | none => rw [hm] at hsome; cases hsome
    | some u => simp [tsmStep, hall, hm, activeCount]
  | TurnEnd =>
    have hni : m.state ≠ .Idle := allowed_not_idle hall (by simp) (by simp)
    have hsome : m.activeTurn.isSome = true := by rw [hc]; simpa using hni
    cases hm : m.activeTurn with
    | none => rw [hm] at hsome; cases hsome
    | some u => simp [tsmStep, hall, hm, activeCount]
  | TranslationSynthesis a =>
    simp [tsmStep, hall, activeCount]

theorem tsmExec_count (es : List TsmEvent) (m : TsmMachine)
    (hinv : tsmInv m) (hvalid : validTrace m es = true) :
    (tsmExec m es).archive.length + activeCount (tsmExec m es)
      = m.archive.length + activeCount m + countTurnStarts es := by
  induction es generalizing m with
  | nil => simp [tsmExec, countTurnStarts]
  | cons e rest ih =>
    simp only [validTrace, Bool.and_eq_true] at hvalid
    obtain ⟨hall, hrest⟩ := hvalid
    have hstep := tsmStep_count m e hall hinv.1
    have := ih (tsmStep m e).1 (tsmStep_inv m e hinv) hrest
    simp only [tsmExec]
    rw [this, hstep]
    simp only [countTurnStarts, List.countP_cons]
    omega

/-- Completed turns are never revisited: every step only appends to the
archive. -/
theorem tsmStep_archive_extends (m : TsmMachine) (e : TsmEvent) :
    ∃ tail, (tsmStep m e).1.archive = m.archive ++ tail := by
  by_cases hall : allowed m.state e = true
  · cases e with
    | TurnEnd =>
      exact ⟨(m.activeTurn.map (fun t => { t with status := .Finalized })).toList,
        by simp [tsmStep, hall]⟩
    | _ => exact ⟨[], by simp [tsmStep, hall]⟩
  · refine ⟨cancelActive m |>.drop m.archive.length, ?_⟩
    simp only [tsmStep, hall, if_neg, Bool.not_eq_true]
    unfold cancelActive
    cases m.activeTurn <;> simp

theorem tsmExec_archive_extends (es : List TsmEvent) (m : TsmMachine) :
    ∃ tail, (tsmExec m es).archive = m.archive ++ tail := by
  induction es generalizing m with
  | nil => exact ⟨[], by simp [tsmExec]⟩
  | cons e rest ih =>
    obtain ⟨t1, h1⟩ := tsmStep_archive_extends m e
    obtain ⟨t2, h2⟩ := ih (tsmStep m e).1
    exact ⟨t1 ++ t2, by simp only [tsmExec, h2, h1, List.append_assoc]⟩

/-- C6: an event outside the allowed set of the current state (for example a
`Phrase` delivered while the machine is `Idle` with no active turn) is
converted to a `ProtocolViolation`-tagged `Error` event; no turn is created,
and the current turn, if any, is forced to `Canceled`. -/
theorem out_of_order_protocol_violation (m : TsmMachine) (e : TsmEvent)
    (h : allowed m.state e = false) :
    (tsmStep m e).2 = [OutEvent.errorEvent .ProtocolViolation] ∧
    (tsmStep m e).1.activeTurn = none ∧
    (m.activeTurn = none → (tsmStep m e).1.archive = m.archive) ∧
    (∀ t, m.activeTurn = some t →
      (tsmStep m e).1.archive
        = m.archive ++ [{ t with status := TurnStatus.Canceled }]) := by
  have h' : ¬ allowed m.state e = true := by simp [h]
  refine ⟨by simp [tsmStep, h'], by simp [tsmStep, h'], ?_, ?_⟩
  · intro hm
    simp [tsmStep, h', cancelActive, hm]
  · intro t hm
    simp [tsmStep, h', cancelActive, hm]

/-- Witness for C6: a `Phrase` injected before any `TurnStart` on the fresh
machine yields the `ProtocolViolation` error and creates no turn. -/
theorem out_of_order_protocol_violation_witness :
    allowed tsmInit.state (.Phrase "hello") = false ∧
    (tsmStep tsmInit (.Phrase "hello")).2
      = [OutEvent.errorEvent .ProtocolViolation] ∧
    (tsmStep tsmInit (.Phrase "hello")).1.activeTurn = none ∧
    (tsmStep tsmInit (.Phrase "hello")).1.archive = tsmInit.archive :=
  ⟨rfl,
   (out_of_order_protocol_violation tsmInit (.Phrase "hello") rfl).1,
   (out_of_order_protocol_violation tsmInit (.Phrase "hello") rfl).2.1,
   (out_of_order_protocol_violation tsmInit (.Phrase "hello") rfl).2.2.1 rfl⟩

/-- C7: for every valid event sequence that returns the machine to `Idle`,
every started turn is completed with exactly one terminal status (`Finalized`
or `Canceled`, never both, and the archive is never rewritten afterwards),
no turn is left active, and the machine is again able to accept new
operations (`TurnStart` is allowed). -/
theorem turn_exactly_one_terminal (es : List TsmEvent)
    (hvalid : validTrace tsmInit es = true)
    (hidle : (tsmRun es).state = .Idle) :
    (tsmRun es).activeTurn = none ∧
    (tsmRun es).archive.length = countTurnStarts es ∧
    (∀ t ∈ (tsmRun es).archive,
      t.status = .Finalized ∨ t.status = .Canceled) ∧
    (∀ t ∈ (tsmRun es).archive,
      ¬(t.status = .Finalized ∧ t.status = .Canceled)) ∧
    allowed (tsmRun es).state .TurnStart = true ∧
    (∀ more, ∃ tail,
      (tsmExec (tsmRun es) more).archive = (tsmRun es).archive ++ tail) := by
  have hinv : tsmInv (tsmRun es) := tsmExec_inv es tsmInit tsmInv_init
  obtain ⟨hc, ha, _⟩ := hinv
  have hnone : (tsmRun es).activeTurn = none := by
    rw [hidle] at hc
    simp only [ne_eq, not_true_eq_false, decide_False] at hc
    cases hm : (tsmRun es).activeTurn with
    | none => rfl
    | some u => rw [hm] at hc; cases hc
  refine ⟨hnone, ?_, ha, ?_, ?_, fun more => tsmExec_archive_extends more (tsmRun es)⟩
  · have := tsmExec_count es tsmInit (tsmInv_init) hvalid
    simp only [tsmRun] at hnone ⊢
    rw [show activeCount (tsmExec tsmInit es) = 0 by
      simp [activeCount, hnone]] at this
    simpa [tsmInit, activeCount] using this
  · intro t _ hcontra
    rw [hcontra.1] at hcontra
    cases hcontra.2
  · rw [hidle]; rfl

/-- The single-shot success scenario of the spec. -/
def demoTrace : List TsmEvent :=
  [.TurnStart, .SpeechStartDetected, .Hypothesis "hel", .Hypothesis "hello",
   .Phrase "hello world", .TurnEnd]

/-- Witness for C7 at the spec's single-shot success trace. -/
theorem turn_exactly_one_terminal_witness :
    validTrace tsmInit demoTrace = true ∧
    (tsmRun demoTrace).state = .Idle ∧
    (tsmRun demoTrace).activeTurn = none ∧
    (tsmRun demoTrace).archive.length = countTurnStarts demoTrace :=
  ⟨rfl, rfl,
   (turn_exactly_one_terminal demoTrace rfl rfl).1,
   (turn_exactly_one_terminal demoTrace rfl rfl).2.1⟩

/-! ## RecognizerSession one-shot recognition

Modelled from the spec: the RecognizerSession core behind
`TranslationRecognizer::RecognizeAsync` (which only forwards to
`RecognizeAsyncInternal` of the async-recognizer base, outside the visible
fragment).  `recognizeOnce()` is valid only in `Idle`, arms a future resolved
exactly once, and a concurrent call fails with `OperationInProgress`. -/

/-- Session operating mode (spec data model §3). -/
inductive SessionMode
  | Idle
  | SingleShot
  | Continuous
deriving DecidableEq, Repr

/-- Caller-facing operation failures (spec §7 taxonomy, the part the session
operations return directly). -/
inductive SessionError
  | OperationInProgress
deriving DecidableEq, Repr

/-- Session-level events that drive one-shot future resolution (spec §4.5). -/
inductive SessionEvent
  | TurnStart
  | SpeechStart
  | Hypothesis (text : String)
  | Phrase (text : String)
  | TurnEnd
  | Canceled (reason : String)
  | Error (reason : String)
deriving DecidableEq, Repr

/-- Events at which a pending one-shot future resolves: success on `TurnEnd`,
failure on `Canceled`/`Error`. -/
def isResolvingEvent : SessionEvent → Bool
  | .TurnEnd => true
  | .Canceled _ => true
  | .Error _ => true
  | _ => false

/-- The session state observable through the one-shot interface. -/
structure OneShotSession where
  mode : SessionMode
  pending : Bool                                  -- a one-shot future is armed
  resolvedCount : Nat                             -- times that future resolved
  resolvedValue : Option (Except String String)   -- reason, or final phrase
  lastPhrase : Option String
deriving Repr

def freshSession : OneShotSession :=
  { mode := .Idle, pending := false, resolvedCount := 0,
    resolvedValue := none, lastPhrase := none }

/-- Modelled from the spec: `recognizeOnce()` — valid only when mode is
`Idle`; sets mode `SingleShot` and arms the returned future; a concurrent
call while a one-shot is pending fails immediately with
`OperationInProgress`. -/
def recognizeOnce (s : OneShotSession) :
    OneShotSession × Except SessionError Unit :=
  if s.mode = .Idle then
    ({ s with mode := .SingleShot, pending := true }, .ok ())
  else
    (s, .error .OperationInProgress)

/-- Modelled from the spec: how incoming session events resolve the pending
one-shot future — the final phrase on `TurnEnd`, a failure carrying the
reason on `Canceled`/`Error`; events after resolution touch nothing. -/
def sessionStep (s : OneShotSession) : SessionEvent → OneShotSession
  | .Phrase txt =>
      if s.pending then { s with lastPhrase := some txt } else s
  | .TurnEnd =>
      if s.pending then
        { s with mode := .Idle, pending := false,
                 resolvedCount := s.resolvedCount + 1,
                 resolvedValue := some (.ok (s.lastPhrase.getD "")) }
      else s
  | .Canceled reason =>
      if s.pending then
        { s with mode := .Idle, pending := false,
                 resolvedCount := s.resolvedCount + 1,
                 resolvedValue := some (.error reason) }
      else s
  | .Error reason =>
      if s.pending then
        { s with mode := .Idle, pending := false,
                 resolvedCount := s.resolvedCount + 1,
                 resolvedValue := some (.error reason) }
      else s
  | _ => s

def sessionRun (s : OneShotSession) (es : List SessionEvent) : OneShotSession :=
  es.foldl sessionStep s

/-- The session right after `recognizeOnce()` succeeded from `Idle`. -/
def pendingSession : OneShotSession := (recognizeOnce freshSession).1

/-- One-shot invariant: the armed future is unresolved, a disarmed one has
resolved exactly once. -/
def oneShotInv (s : OneShotSession) : Prop :=
  (s.pending = true ∧ s.resolvedCount = 0) ∨
  (s.pending = false ∧ s.resolvedCount = 1)

theorem sessionStep_not_pending (s : OneShotSession) (e : SessionEvent)
    (h : s.pending = false) : sessionStep s e = s := by
  cases e <;> simp [sessionStep, h]

theorem sessionRun_not_pending (es : List SessionEvent) (s : OneShotSession)
    (h : s.pending = false) : sessionRun s es = s := by
  induction es with
  | nil => rfl
  | cons e rest ih =>
    simp only [sessionRun, List.foldl_cons, sessionStep_not_pending s e h]
    exact ih

theorem sessionStep_inv (s : OneShotSession) (e : SessionEvent)
    (h : oneShotInv s) : oneShotInv (sessionStep s e) := by
  rcases h with ⟨hp, hr⟩ | ⟨hp, hr⟩
  · cases e <;> simp [sessionStep, hp, hr, oneShotInv]
  · rw [sessionStep_not_pending s e hp]
    exact .inr ⟨hp, hr⟩

theorem sessionRun_inv (es : List SessionEvent) (s : OneShotSession)
    (h : oneShotInv s) : oneShotInv (sessionRun s es) := by
  induction es generalizing s with
  | nil => exact h
  | cons e rest ih => exact ih _ (sessionStep_inv s e h)

theorem sessionRun_resolves (es : List SessionEvent) (s : OneShotSession)
    (h : oneShotInv s) (hterm : es.any isResolvingEvent = true) :
    (sessionRun s es).resolvedCount = 1 := by
  induction es generalizing s with
  | nil => cases hterm
  | cons e rest ih =>
    show (sessionRun (sessionStep s e) rest).resolvedCount = 1
    simp only [List.any_cons, Bool.or_eq_true] at hterm
    by_cases he : isResolvingEvent e = true
    · have hafter : (sessionStep s e).pending = false ∧
          (sessionStep s e).resolvedCount = 1 := by
        rcases h with ⟨hp, hr⟩ | ⟨hp, hr⟩
        · cases e <;> simp_all [sessionStep, isResolvingEvent]
        · rw [sessionStep_not_pending s e hp]; exact ⟨hp, hr⟩
      calc (sessionRun (sessionStep s e) rest).resolvedCount
          = (sessionStep s e).resolvedCount := by
            rw [sessionRun_not_pending rest _ hafter.1]
        _ = 1 := hafter.2
    · rcases hterm with hterm | hterm
      · exact absurd hterm he
      · exact ih _ (sessionStep_inv s e h) hterm

/-- C4: from `Idle`, `recognizeOnce()` succeeds and arms the one-shot future;
a concurrent `recognizeOnce()` while one is pending fails immediately with
`OperationInProgress`; and for every event sequence the armed future resolves
at most once — exactly once as soon as a resolving event (`TurnEnd`,
`Canceled`, `Error`) arrives, with the final phrase on success and a failure
carrying the reason on `Canceled`/`Error`. -/
theorem recognize_once_exactly_once (es : List SessionEvent)
    (hterm : es.any isResolvingEvent = true) :
    (recognizeOnce freshSession).2 = .ok () ∧
    (recognizeOnce pendingSession).2 = .error .OperationInProgress ∧
    (sessionRun pendingSession es).resolvedCount = 1 ∧
    (∀ es2 : List SessionEvent,
      (sessionRun pendingSession es2).resolvedCount ≤ 1) ∧
    (sessionRun pendingSession
      [.Phrase "hello world", .TurnEnd]).resolvedValue
        = some (.ok "hello world") ∧
    (∀ reason, (sessionStep pendingSession (.Canceled reason)).resolvedValue
        = some (.error reason)) := by
  have hpend : oneShotInv pendingSession := .inl ⟨rfl, rfl⟩
  refine ⟨rfl, rfl, sessionRun_resolves es pendingSession hpend hterm, ?_, rfl, ?_⟩
  · intro es2
    rcases sessionRun_inv es2 pendingSession hpend with ⟨_, hr⟩ | ⟨_, hr⟩ <;> omega
  · intro reason
    rfl

/-- Witness for C4 at the spec's single-shot traces. -/
theorem recognize_once_exactly_once_witness :
    ([SessionEvent.TurnStart, .SpeechStart, .Hypothesis "hel",
      .Phrase "hello world", .TurnEnd].any isResolvingEvent = true) ∧
    (recognizeOnce pendingSession).2 = .error .OperationInProgress ∧
    (sessionRun pendingSession
      [.TurnStart, .SpeechStart, .Hypothesis "hel",
       .Phrase "hello world", .TurnEnd]).resolvedCount = 1 :=
  ⟨rfl,
   (recognize_once_exactly_once
     [.TurnStart, .SpeechStart, .Hypothesis "hel",
      .Phrase "hello world", .TurnEnd] rfl).2.1,
   (recognize_once_exactly_once
     [.TurnStart, .SpeechStart, .Hypothesis "hel",
      .Phrase "hello world", .TurnEnd] rfl).2.2.1⟩

/-! ## stopContinuous / shutdown idempotence

Modelled from the spec: `TranslationRecognizer::StopContinuousRecognitionAsync`
only forwards to `StopContinuousRecognitionAsyncInternal` (outside the visible
fragment); the session behaviour of `stopContinuous()` and `shutdown()` is
taken from §4.2/§4.5. -/

/-- Session lifecycle state observable by stop/shutdown. -/
structure LifecycleState where
  mode : SessionMode
  connection : ConnectionState
  audioEndFlushed : Bool   -- the buffered outbound audio-end marker was sent
  turnActive : Bool
deriving DecidableEq, Repr

/-- Modelled from the spec: `stopContinuous()` — waits for the in-flight turn
to reach a terminal state, then tears down to `Idle`; a call outside
`Continuous` mode changes nothing. -/
def stopContinuousRecognition (s : LifecycleState) : LifecycleState :=
  if s.mode = .Continuous then
    { s with mode := .Idle, turnActive := false }
  else s

/-- Modelled from the spec: `shutdown()` — flushes the buffered outbound
audio-end marker, waits for a final turn-end within the grace period, then
tears down the transport; safe from any state. -/
def shutdownSession (s : LifecycleState) : LifecycleState :=
  if s.connection = .Closed then s
  else
    { s with connection := .Closed, audioEndFlushed := true,
             mode := .Idle, turnActive := false }

/-- C8: `stopContinuous()` and `shutdown()` are idempotent — from every
session state, any second or further call after the first produces no
additional observable state change. -/
theorem stop_and_shutdown_idempotent (s : LifecycleState) (n : Nat) :
    stopContinuousRecognition (stopContinuousRecognition s)
      = stopContinuousRecognition s ∧
    shutdownSession (shutdownSession s) = shutdownSession s ∧
    stopContinuousRecognition^[n + 1] s = stopContinuousRecognition s ∧
    shutdownSession^[n + 1] s = shutdownSession s := by
  have hstop : ∀ t : LifecycleState,
      stopContinuousRecognition (stopContinuousRecognition t)
        = stopContinuousRecognition t := by
    intro t
    by_cases h : t.mode = .Continuous <;>
      simp [stopContinuousRecognition, h]
  have hshut : ∀ t : LifecycleState,
      shutdownSession (shutdownSession t) = shutdownSession t := by
    intro t
    by_cases h : t.connection = .Closed <;>
      simp [shutdownSession, h]
  refine ⟨hstop s, hshut s, ?_, ?_⟩
  · induction n with
    | zero => simp
    | succ k ih =>
      rw [Function.iterate_succ_apply', ih, hstop]
  · induction n with
    | zero => simp
    | succ k ih =>
      rw [Function.iterate_succ_apply', ih, hshut]

/-! ## USP console harness (`uspclientconsole.c`)

`main` reads from the audio file with
`fread(buffer, sizeof(uint8_t), MAX_AUDIO_SIZE_IN_BYTE, audio)` into a stack
buffer of `MAX_AUDIO_SIZE_IN_BYTE` bytes, then calls
`UspWrite(handle, buffer, sizeof(buffer))` — the full buffer size, ignoring
how many bytes `fread` returned. -/

/-- `#define MAX_AUDIO_SIZE_IN_BYTE (256*1024)` -/
def MAX_AUDIO_SIZE_IN_BYTE : Nat := 256 * 1024

/-- `fread` reads at most the requested element count: the lesser of the file
length and the buffer size. -/
def freadCount (fileLen : Nat) : Nat :=
  min fileLen MAX_AUDIO_SIZE_IN_BYTE

/-- The stack buffer after `fread`: positions below the byte count actually
read hold file data; all later positions keep their uninitialized stack
contents. -/
def bufferAfterFread (fileBytes : List Nat) (uninit : Nat → Nat)
    (i : Nat) : Nat :=
  if i < freadCount fileBytes.length then fileBytes.getD i 0 else uninit i

/-- The observable arguments of the one `UspWrite` call `main` makes. -/
structure UspWriteCall where
  size : Nat
  byteAt : Nat → Nat

/-- `UspWrite(handle, buffer, sizeof(buffer))`: the byte count passed is
`sizeof(buffer) = MAX_AUDIO_SIZE_IN_BYTE`, not the `fread` return value. -/
def mainUspWrite (fileBytes : List Nat) (uninit : Nat → Nat) : UspWriteCall :=
  { size := MAX_AUDIO_SIZE_IN_BYTE,
    byteAt := bufferAfterFread fileBytes uninit }

/-- C10: for every input file, `main` passes exactly
`MAX_AUDIO_SIZE_IN_BYTE = 256*1024` bytes to `UspWrite`, independent of how
many bytes `fread` read; for a file shorter than the buffer, every
transmitted position at or past the file length carries an uninitialized
stack byte. -/
theorem usp_write_full_buffer (fileBytes : List Nat) (uninit : Nat → Nat) :
    (mainUspWrite fileBytes uninit).size = 256 * 1024 ∧
    (mainUspWrite fileBytes uninit).size = MAX_AUDIO_SIZE_IN_BYTE ∧
    (fileBytes.length < MAX_AUDIO_SIZE_IN_BYTE →
      ∀ i, fileBytes.length ≤ i → i < MAX_AUDIO_SIZE_IN_BYTE →
        (mainUspWrite fileBytes uninit).byteAt i = uninit i) := by
  refine ⟨rfl, rfl, ?_⟩
  intro hshort i hge _
  have hmin : freadCount fileBytes.length = fileBytes.length := by
    simp only [freadCount]
    omega
  simp only [mainUspWrite, bufferAfterFread, hmin]
  rw [if_neg]
  omega

/-- Witness for C10: a 3-byte file still results in a 256 KiB `UspWrite`, and
position 100 of the transmitted buffer is the uninitialized stack byte. -/
theorem usp_write_full_buffer_witness :
    (mainUspWrite [9, 9, 9] (fun _ => 55)).size = 256 * 1024 ∧
    (mainUspWrite [9, 9, 9] (fun _ => 55)).byteAt 100 = 55 :=
  ⟨(usp_write_full_buffer [9, 9, 9] (fun _ => 55)).1,
   (usp_write_full_buffer [9, 9, 9] (fun _ => 55)).2.2
     (by decide) 100 (by decide) (by decide)⟩

end SpeechSdk
